import Mathlib

/-!
Verification development for the lidar_transfer visualizer.

Shallow embedding of the two source files:
  * `visualize.py` — pose parsing, dataset/label discovery, driving loop.
  * `auxiliary/laserscanvis.py` — viewer state (`LaserScanVis`), keyboard
    handling, range colorization and the source/target difference images.

Python strings are modelled as `String`, numpy floating-point arrays as
functions into `ℚ` (exact arithmetic) or `ℝ` where a real power law is
involved, and projection images of shape h x w as functions
`Fin h → Fin w → _`.
-/

/- ## Viewer state — `LaserScanVis` (auxiliary/laserscanvis.py)

The fields touched by `__init__`/`reset`, `key_press`, `get_action` and
`destroy`: the pending action string, the display mode string and whether
the canvases have been destroyed (`destroy` closes them). -/

structure VisState where
  action : String
  view_mode : String
  destroyed : Bool
  deriving DecidableEq

/-- `__init__` (laserscanvis.py lines 14-28) sets `view_mode = 'label'` and
calls `reset`, which sets `action = "no"` (line 34). -/
def initState : VisState :=
  { action := "no", view_mode := "label", destroyed := false }

/-- `key_press` (laserscanvis.py lines 472-488): maps keys to the pending
action; `Q`/`Escape` first call `self.destroy()` (modelled by the
`destroyed` flag) and then set the action; `1`/`2`/`3` also switch the
display mode. Any other key falls through every `elif` and changes
nothing. -/
def key_press (s : VisState) (key : String) : VisState :=
  if key = "N" then { s with action := "next" }
  else if key = "B" then { s with action := "back" }
  else if key = "Q" ∨ key = "Escape" then
    { s with destroyed := true, action := "quit" }
  else if key = "1" then { s with action := "change", view_mode := "label" }
  else if key = "2" then { s with action := "change", view_mode := "range" }
  else if key = "3" then { s with action := "change", view_mode := "rem" }
  else s

/-- `get_action` (laserscanvis.py lines 490-495): returns the stored action
and voids it ("return action and void it to avoid reentry"); the vispy
sleep does not touch the state. -/
def get_action (s : VisState) : String × VisState :=
  (s.action, { s with action := "no" })

/- ## Driving-loop navigation (visualize.py lines 297-309)

`next`: `idx = (idx + 1) % (len(scan_names) - 1)` (line 303);
`back`: `idx -= 1; if idx < 0: idx = len(scan_names) - 1` (lines 306-308).
`n` is the number of scan files. -/

def nextIdx (n i : ℕ) : ℕ :=
  (i + 1) % (n - 1)

def backIdx (n i : ℕ) : ℕ :=
  if i = 0 then n - 1 else i - 1

/- ## Label discovery (visualize.py lines 158-177)

When semantics are not ignored: the labels directory must exist, then
`assert(len(label_names) == len(scan_names))` aborts on a count
mismatch. Only an `Except.ok` result reaches the viewing loop. -/

def labelDiscovery (ignore_semantics labelDirExists : Bool)
    (nscans nlabels : ℕ) : Except String Unit :=
  if ignore_semantics = false then
    if labelDirExists = false then
      Except.error "Labels folder missing. Exiting"
    else if nlabels = nscans then
      Except.ok ()
    else
      Except.error "AssertionError: len(label_names) == len(scan_names)"
  else
    Except.ok ()

/-- The viewing loop (visualize.py line 269 onward) runs only when every
preceding check, label discovery included, has passed. -/
def entersViewingLoop (ignore_semantics labelDirExists : Bool)
    (nscans nlabels : ℕ) : Bool :=
  match labelDiscovery ignore_semantics labelDirExists nscans nlabels with
  | Except.ok _ => true
  | Except.error _ => false

/- ## Pose parsing (visualize.py lines 41-72) -/

/-- One poses-file line: 12 floats filling `pose[0,0:4]`, `pose[1,0:4]`,
`pose[2,0:4]` of an `np.zeros((4,4))` matrix, then `pose[3,3] = 1.0`
(visualize.py lines 62-66). -/
def mkPose (v : Fin 12 → ℚ) : Matrix (Fin 4) (Fin 4) ℚ :=
  Matrix.of
    ![![v 0, v 1, v 2, v 3],
      ![v 4, v 5, v 6, v 7],
      ![v 8, v 9, v 10, v 11],
      ![0, 0, 0, 1]]

/-- `parse_poses` (visualize.py lines 41-72): for each line, build the 4x4
pose and append `np.matmul(Tr_inv, np.matmul(pose, Tr))` with
`Tr_inv = np.linalg.inv(Tr)` (lines 53-54, 69). -/
noncomputable def parse_poses (lines : List (Fin 12 → ℚ))
    (Tr : Matrix (Fin 4) (Fin 4) ℚ) : List (Matrix (Fin 4) (Fin 4) ℚ) :=
  lines.map fun v => Tr⁻¹ * (mkPose v * Tr)

/- ## Difference images — `LaserScanVis.set_diff` (laserscanvis.py lines 330-399)

The scan objects come from `auxiliary/laserscan.py`, which is not part of
the checked sources; `set_diff` only reads three per-pixel arrays of them:
`proj_color` (h x w x 3 float image), `get_label_map()` (h x w integer
label map) and `proj_range` (h x w float range image). A target scan
additionally carries `adaption` and, for `adaption == 'cp'`, a `merged`
sub-scan whose images are used in place of its own for the label part. -/

structure ScanImages (h w : ℕ) where
  proj_color : Fin h → Fin w → Fin 3 → ℚ
  label_map : Fin h → Fin w → ℤ
  proj_range : Fin h → Fin w → ℚ

structure TargetScan (h w : ℕ) where
  images : ScanImages h w
  adaption : String
  merged : ScanImages h w

/-- Lines 345-348: `black = np.sum(source_label, axis=2) == 0`, repeated
over the three channels, then `target_label[black] = 0`. -/
def maskedTargetColor {h w : ℕ} (src tl : ScanImages h w) :
    Fin h → Fin w → Fin 3 → ℚ :=
  fun i j c =>
    if src.proj_color i j 0 + src.proj_color i j 1 + src.proj_color i j 2 = 0
    then 0 else tl.proj_color i j c

/-- Lines 349-350: `black = source_label_map == 0; target_label_map[black] = 0`. -/
def maskedTargetLabelMap {h w : ℕ} (src tl : ScanImages h w) :
    Fin h → Fin w → ℤ :=
  fun i j => if src.label_map i j = 0 then 0 else tl.label_map i j

/-- Line 367: `label_diff = abs(source_label - target_label)`, computed
after the in-place masking of the target label image. -/
def labelDiff {h w : ℕ} (src : ScanImages h w)
    (tcolor : Fin h → Fin w → Fin 3 → ℚ) : Fin h → Fin w → Fin 3 → ℚ :=
  fun i j c => |src.proj_color i j c - tcolor i j c|

/-- Line 385: `range_diff = (source_range - target_range) ** 2`. The mask
`black = source_range == 0` of line 375 is computed in the source but its
application `target_range[black] = 0` (line 376) is commented out, so no
masking enters this computation. -/
def rangeDiff {h w : ℕ} (src tgt : Fin h → Fin w → ℚ) :
    Fin h → Fin w → ℚ :=
  fun i j => (src i j - tgt i j) ^ 2

/-- The in-place effect of lines 345-350 on the scan whose images were
selected as `target_label`/`target_label_map`: its color image and label
map are overwritten through the numpy aliases; `proj_range` is untouched. -/
def mutateImages {h w : ℕ} (src tl : ScanImages h w) : ScanImages h w :=
  { proj_color := maskedTargetColor src tl,
    label_map := maskedTargetLabelMap src tl,
    proj_range := tl.proj_range }

structure DiffOutput (h w : ℕ) where
  label_diff : Fin h → Fin w → Fin 3 → ℚ
  range_diff : Fin h → Fin w → ℚ

/-- `set_diff` (laserscanvis.py lines 330-399). Returns the target scan as
the caller sees it after the call together with the pair of difference
images pushed to the display, or `none` past the early
`if not self.show_diff: return` (lines 331-332). Lines 338-343 select the
`merged` images when `adaption == 'cp'`, otherwise the target scan's own;
lines 372-373 always take `scan_target.proj_range` for the range part. -/
def set_diff {h w : ℕ} (show_diff : Bool) (src : ScanImages h w)
    (tgt : TargetScan h w) : TargetScan h w × Option (DiffOutput h w) :=
  if show_diff = false then (tgt, none)
  else if tgt.adaption = "cp" then
    ({ tgt with merged := mutateImages src tgt.merged },
     some { label_diff := labelDiff src (maskedTargetColor src tgt.merged),
            range_diff := rangeDiff src.proj_range tgt.images.proj_range })
  else
    ({ tgt with images := mutateImages src tgt.images },
     some { label_diff := labelDiff src (maskedTargetColor src tgt.images),
            range_diff := rangeDiff src.proj_range tgt.images.proj_range })

/-- A 1x1 source frame that is entirely absent: black color, label 0,
range 0. -/
def srcZero : ScanImages 1 1 :=
  { proj_color := fun _ _ _ => 0,
    label_map := fun _ _ => 0,
    proj_range := fun _ _ => 0 }

/-- A 1x1 target scan (not of the `'cp'` adaption) whose pixel carries
data: color (1,1,1), label 5, range 3. -/
def tgtOnes : TargetScan 1 1 :=
  { images := { proj_color := fun _ _ _ => 1,
                label_map := fun _ _ => 5,
                proj_range := fun _ _ => 3 },
    adaption := "mesh",
    merged := { proj_color := fun _ _ _ => 0,
                label_map := fun _ _ => 0,
                proj_range := fun _ _ => 0 } }

/- ## Range colorization — `LaserScanVis.set_laserscan` (laserscanvis.py
lines 193-206)

`range_data = np.copy(scan.unproj_range); range_data = range_data**(1/16);
viridis_range = ((range_data - range_data.min()) /
(range_data.max() - range_data.min()) * 255).astype(np.uint8);
viridis_colors = viridis_map[viridis_range]`.

Floats are modelled as exact reals. The division is written with no guard
in the source: when `max == min` it is 0/0, a NaN that then propagates
through `astype` and the table lookup; the embedding returns `none` for
exactly that unguarded case and otherwise the list of truncated 8-bit
indices (`astype(np.uint8)` truncates; all values lie in [0,255] here). -/

noncomputable def powerRemap (x : ℝ) : ℝ :=
  x ^ ((1 : ℝ) / 16)

/-- `np.min` of a nonempty array (the `[]` case is junk, never produced by
`unproj_range` of an opened scan). -/
noncomputable def listMin : List ℝ → ℝ
  | [] => 0
  | x :: xs => xs.foldl min x

/-- `np.max` of a nonempty array. -/
noncomputable def listMax : List ℝ → ℝ
  | [] => 0
  | x :: xs => xs.foldl max x

/-- The `viridis_range` index image of laserscanvis.py lines 195-200. -/
noncomputable def viridisRange (xs : List ℝ) : Option (List ℤ) :=
  let rd := xs.map powerRemap
  let mn := listMin rd
  let mx := listMax rd
  if mx = mn then none
  else some (rd.map fun x => ⌊(x - mn) / (mx - mn) * 255⌋)

/-- A valid 8-bit RGB triple. -/
def rgb8 (c : ℤ × ℤ × ℤ) : Prop :=
  (0 ≤ c.1 ∧ c.1 ≤ 255) ∧ (0 ≤ c.2.1 ∧ c.2.1 ≤ 255) ∧
    (0 ≤ c.2.2 ∧ c.2.2 ≤ 255)

instance (c : ℤ × ℤ × ℤ) : Decidable (rgb8 c) := by
  unfold rgb8; infer_instance

/-- `viridis_colors = viridis_map[viridis_range]` (line 202), for a
256-entry colormap table; `viridis_range` is already `uint8`, so the
lookup index is its value modulo 256. The table itself is built by
`get_mpl_colormap` in `auxiliary/tools.py`, which is not among the checked
sources, so it stays a parameter. -/
noncomputable def rangeColors (table : Fin 256 → ℤ × ℤ × ℤ)
    (xs : List ℝ) : Option (List (ℤ × ℤ × ℤ)) :=
  (viridisRange xs).map fun ys =>
    ys.map fun idx => table ⟨idx.toNat % 256, Nat.mod_lt _ (by norm_num)⟩

/- ## Helper lemmas -/

theorem foldl_min_le_init (l : List ℝ) (a : ℝ) : l.foldl min a ≤ a := by
  induction l generalizing a with
  | nil => exact le_rfl
  | cons y ys ih => exact le_trans (ih (min a y)) (min_le_left a y)

theorem foldl_min_le_mem (l : List ℝ) (a x : ℝ) (hx : x ∈ l) :
    l.foldl min a ≤ x := by
  induction l generalizing a with
  | nil => cases hx
  | cons y ys ih =>
    rcases List.mem_cons.mp hx with h | h
    · subst h
      exact le_trans (foldl_min_le_init ys (min a x)) (min_le_right a x)
    · exact ih (min a y) h

theorem listMin_le {l : List ℝ} {x : ℝ} (hx : x ∈ l) : listMin l ≤ x := by
  cases l with
  | nil => cases hx
  | cons y ys =>
    rcases List.mem_cons.mp hx with h | h
    · subst h; exact foldl_min_le_init ys x
    · exact foldl_min_le_mem ys y x h

theorem init_le_foldl_max (l : List ℝ) (a : ℝ) : a ≤ l.foldl max a := by
  induction l generalizing a with
  | nil => exact le_rfl
  | cons y ys ih => exact le_trans (le_max_left a y) (ih (max a y))

theorem mem_le_foldl_max (l : List ℝ) (a x : ℝ) (hx : x ∈ l) :
    x ≤ l.foldl max a := by
  induction l generalizing a with
  | nil => cases hx
  | cons y ys ih =>
    rcases List.mem_cons.mp hx with h | h
    · subst h
      exact le_trans (le_max_right a x) (init_le_foldl_max ys (max a x))
    · exact ih (max a y) h

theorem le_listMax {l : List ℝ} {x : ℝ} (hx : x ∈ l) : x ≤ listMax l := by
  cases l with
  | nil => cases hx
  | cons y ys =>
    rcases List.mem_cons.mp hx with h | h
    · subst h; exact init_le_foldl_max ys x
    · exact mem_le_foldl_max ys y x h

/- ## Claim theorems -/

/-- C3: `get_action` returns the most recently stored action and resets the
stored action to "no", so two consecutive reads with no intervening
keypress return the pending action followed by "no". -/
theorem c3_get_action_read_and_clear (s : VisState) :
    (get_action s).1 = s.action ∧ ((get_action s).2).action = "no" ∧
    (get_action (get_action s).2).1 = "no" :=
  ⟨rfl, rfl, rfl⟩

/-- C5: `key_press` maps N to next, B to back, Q/Escape to quit after
releasing the viewer resources (`destroy`), and 1/2/3 to the action
"change" with display mode label, range and rem respectively. -/
theorem c5_key_press_mapping (s : VisState) :
    key_press s "N" = { s with action := "next" } ∧
    key_press s "B" = { s with action := "back" } ∧
    key_press s "Q" = { s with action := "quit", destroyed := true } ∧
    key_press s "Escape" = { s with action := "quit", destroyed := true } ∧
    key_press s "1" = { s with action := "change", view_mode := "label" } ∧
    key_press s "2" = { s with action := "change", view_mode := "range" } ∧
    key_press s "3" = { s with action := "change", view_mode := "rem" } :=
  ⟨rfl, rfl, rfl, rfl, rfl, rfl, rfl⟩

/-- C7: the per-pixel squared range difference of `set_diff` is symmetric
in its two range images and vanishes when they coincide. -/
theorem c7_range_diff_symmetric (h w : ℕ) (a b : Fin h → Fin w → ℚ) :
    (∀ i j, rangeDiff a b i j = rangeDiff b a i j) ∧
    (∀ i j, rangeDiff a a i j = 0) := by
  constructor <;> intro i j <;> unfold rangeDiff <;> ring

/-- C8: with semantics not ignored and the labels directory present, a
mismatch between the number of label files and scan files makes label
discovery abort with an error, so the viewing loop is never entered. -/
theorem c8_label_count_mismatch_aborts (nscans nlabels : ℕ)
    (hne : nlabels ≠ nscans) :
    labelDiscovery false true nscans nlabels =
      Except.error "AssertionError: len(label_names) == len(scan_names)" ∧
    entersViewingLoop false true nscans nlabels = false := by
  have hd : labelDiscovery false true nscans nlabels =
      Except.error "AssertionError: len(label_names) == len(scan_names)" := by
    unfold labelDiscovery
    simp [hne]
  exact ⟨hd, by unfold entersViewingLoop; rw [hd]⟩

theorem c8_witness :
    ((3 : ℕ) ≠ 2) ∧
    (labelDiscovery false true 2 3 =
      Except.error "AssertionError: len(label_names) == len(scan_names)" ∧
     entersViewingLoop false true 2 3 = false) :=
  ⟨by decide, c8_label_count_mismatch_aborts 2 3 (by decide)⟩

/-- C10: the display mode starts as "label", any key outside
N/B/Q/Escape/1/2/3 leaves the whole viewer state (pending action and
display mode included) unchanged, and every keypress keeps the display
mode inside the set of the three valid modes. -/
theorem c10_view_mode_invariant :
    initState.view_mode = "label" ∧
    (∀ (s : VisState) (k : String),
      k ∉ (["N", "B", "Q", "Escape", "1", "2", "3"] : List String) →
      key_press s k = s) ∧
    (∀ (s : VisState) (k : String),
      s.view_mode ∈ (["label", "range", "rem"] : List String) →
      (key_press s k).view_mode ∈ (["label", "range", "rem"] : List String)) := by
  refine ⟨rfl, ?_, ?_⟩
  · intro s k hk
    simp only [List.mem_cons, List.not_mem_nil, or_false, not_or] at hk
    obtain ⟨h1, h2, h3, h4, h5, h6, h7⟩ := hk
    unfold key_press
    rw [if_neg h1, if_neg h2, if_neg (not_or.mpr ⟨h3, h4⟩), if_neg h5,
      if_neg h6, if_neg h7]
  · intro s k hv
    unfold key_press
    split_ifs <;> simp_all

theorem c10_witness :
    (("X" : String) ∉ (["N", "B", "Q", "Escape", "1", "2", "3"] : List String)) ∧
    key_press { action := "no", view_mode := "label", destroyed := false } "X" =
      { action := "no", view_mode := "label", destroyed := false } :=
  ⟨by decide,
   c10_view_mode_invariant.2.1
     { action := "no", view_mode := "label", destroyed := false } "X" (by decide)⟩

/-- C2 counterexample: with 5 scans and starting index 2, the sequence
next, next, back lands on index 4, not on 3 = starting index + 1 — the
forward step wraps modulo `len(scan_names) - 1` while the backward step
wraps to `len(scan_names) - 1`, so the claimed net offset of +1 fails.
No wraparound is involved in the expected value: 2 + 1 = 3 is below both
moduli. -/
theorem c2_counterexample :
    backIdx 5 (nextIdx 5 (nextIdx 5 2)) = 4 ∧ (2 + 1) % 5 = 3 ∧
    (2 + 1) % 4 = 3 ∧ (4 : ℕ) ≠ 3 := by decide

/-- C2 amended: the driving loop advances with `(i + 1) % (n - 1)`, so
next, next, back yields `(i + 1) % (n - 1)` for every starting index whose
second advance does not land on 0; when `(i + 2) % (n - 1) = 0` the back
step wraps to `n - 1` instead. Advancing wraps modulo `n - 1`: the value
`n - 1` wraps to the first frame, i.e. next maps index `n - 2` to 0. -/
theorem c2_nav_amended :
    (∀ n i : ℕ, 2 ≤ n → (i + 2) % (n - 1) ≠ 0 →
      backIdx n (nextIdx n (nextIdx n i)) = (i + 1) % (n - 1)) ∧
    (∀ n : ℕ, 3 ≤ n → nextIdx n (n - 2) = 0) := by
  constructor
  · intro n i hn h2
    have hm : 0 < n - 1 := by omega
    have e2 : nextIdx n (nextIdx n i) = (i + 2) % (n - 1) := by
      unfold nextIdx
      rw [Nat.mod_add_mod]
    have ha : (i + 1) % (n - 1) < n - 1 := Nat.mod_lt _ hm
    have key : (i + 2) % (n - 1) = ((i + 1) % (n - 1) + 1) % (n - 1) := by
      rw [Nat.mod_add_mod]
    rcases Nat.lt_or_ge ((i + 1) % (n - 1) + 1) (n - 1) with hc | hc
    · rw [e2, backIdx, if_neg (by rw [key, Nat.mod_eq_of_lt hc]; omega),
        key, Nat.mod_eq_of_lt hc]
      omega
    · exfalso
      apply h2
      have heq : (i + 1) % (n - 1) + 1 = n - 1 := by omega
      rw [key, heq, Nat.mod_self]
  · intro n hn
    unfold nextIdx
    have hstep : n - 2 + 1 = n - 1 := by omega
    rw [hstep, Nat.mod_self]

theorem c2_witness :
    ((2 : ℕ) ≤ 5 ∧ (0 + 2) % (5 - 1) ≠ 0 ∧
      backIdx 5 (nextIdx 5 (nextIdx 5 0)) = (0 + 1) % (5 - 1)) ∧
    ((3 : ℕ) ≤ 5 ∧ nextIdx 5 (5 - 2) = 0) :=
  ⟨⟨by decide, by decide, c2_nav_amended.1 5 0 (by decide) (by decide)⟩,
   ⟨by decide, c2_nav_amended.2 5 (by decide)⟩⟩

/-- C6: `parse_poses` yields one matrix per input line in file order; the
k-th output is `Tr⁻¹ * (pose_k * Tr)` for the 4x4 pose built from the
k-th line; that pose holds the line's 12 floats as its first three rows in
row order and has (0, 0, 0, 1) as its last row. -/
theorem c6_parse_poses (lines : List (Fin 12 → ℚ))
    (Tr : Matrix (Fin 4) (Fin 4) ℚ) :
    (parse_poses lines Tr).length = lines.length ∧
    (∀ k : ℕ, (parse_poses lines Tr)[k]? =
      (lines[k]?).map fun v => Tr⁻¹ * (mkPose v * Tr)) ∧
    (∀ v : Fin 12 → ℚ,
      (mkPose v 0 0 = v 0 ∧ mkPose v 0 1 = v 1 ∧
       mkPose v 0 2 = v 2 ∧ mkPose v 0 3 = v 3) ∧
      (mkPose v 1 0 = v 4 ∧ mkPose v 1 1 = v 5 ∧
       mkPose v 1 2 = v 6 ∧ mkPose v 1 3 = v 7) ∧
      (mkPose v 2 0 = v 8 ∧ mkPose v 2 1 = v 9 ∧
       mkPose v 2 2 = v 10 ∧ mkPose v 2 3 = v 11) ∧
      (mkPose v 3 0 = 0 ∧ mkPose v 3 1 = 0 ∧
       mkPose v 3 2 = 0 ∧ mkPose v 3 3 = 1)) := by
  refine ⟨List.length_map _ _, fun k => ?_, fun v => ?_⟩
  · unfold parse_poses
    rw [List.getElem?_map]
  · exact ⟨⟨rfl, rfl, rfl, rfl⟩, ⟨rfl, rfl, rfl, rfl⟩,
      ⟨rfl, rfl, rfl, rfl⟩, ⟨rfl, rfl, rfl, rfl⟩⟩

/-- C1 counterexample: a 1x1 frame whose source pixel is fully absent
(black color, range 0) against a target with range 3 yields a squared
range difference of 9 there — the range masking of the source
(`target_range[black] = 0`, laserscanvis.py line 376) is commented out, so
an absent source pixel does register a nonzero range difference,
refuting the claim for the squared range difference. -/
theorem c1_counterexample :
    srcZero.proj_range 0 0 = 0 ∧
    srcZero.proj_color 0 0 0 + srcZero.proj_color 0 0 1 +
      srcZero.proj_color 0 0 2 = 0 ∧
    ((set_diff true srcZero tgtOnes).2.map fun d => d.range_diff 0 0) =
      some 9 := by
  refine ⟨rfl, by norm_num [srcZero], ?_⟩
  show some ((srcZero.proj_range 0 0 - tgtOnes.images.proj_range 0 0) ^ 2) =
    some 9
  norm_num [srcZero, tgtOnes]

/-- C1 amended: with the difference view enabled, a source pixel that is
black (channels summing to zero, all channels nonnegative) is forced to
the sentinel in the target label image before differencing, so it never
produces a nonzero label-color difference; the squared range difference,
however, is computed from the unmasked range images, so it is the raw
squared difference even at absent source pixels. -/
theorem c1_label_mask_amended {h w : ℕ} (src : ScanImages h w)
    (tgt : TargetScan h w) (hnn : ∀ i j c, 0 ≤ src.proj_color i j c)
    (i : Fin h) (j : Fin w)
    (hblack : src.proj_color i j 0 + src.proj_color i j 1 +
      src.proj_color i j 2 = 0) :
    ∀ d : DiffOutput h w, (set_diff true src tgt).2 = some d →
      (∀ c, d.label_diff i j c = 0) ∧
      d.range_diff i j =
        (src.proj_range i j - tgt.images.proj_range i j) ^ 2 := by
  intro d hd
  have hch : ∀ c : Fin 3, src.proj_color i j c = 0 := by
    have h0 := hnn i j 0
    have h1 := hnn i j 1
    have h2 := hnn i j 2
    have e0 : src.proj_color i j 0 = 0 := by linarith
    have e1 : src.proj_color i j 1 = 0 := by linarith
    have e2 : src.proj_color i j 2 = 0 := by linarith
    intro c
    fin_cases c
    · exact e0
    · exact e1
    · exact e2
  have hset : (set_diff true src tgt).2 =
      some { label_diff := labelDiff src (maskedTargetColor src
               (if tgt.adaption = "cp" then tgt.merged else tgt.images)),
             range_diff := rangeDiff src.proj_range tgt.images.proj_range } := by
    unfold set_diff
    by_cases hcp : tgt.adaption = "cp" <;> simp [hcp]
  rw [hset] at hd
  obtain rfl : _ = d := Option.some.inj hd
  constructor
  · intro c
    show labelDiff src (maskedTargetColor src _) i j c = 0
    unfold labelDiff maskedTargetColor
    rw [if_pos hblack, hch c]
    simp
  · rfl

theorem c1_witness :
    (∀ (i j : Fin 1) (c : Fin 3), 0 ≤ srcZero.proj_color i j c) ∧
    (srcZero.proj_color 0 0 0 + srcZero.proj_color 0 0 1 +
      srcZero.proj_color 0 0 2 = 0) ∧
    (∀ d : DiffOutput 1 1, (set_diff true srcZero tgtOnes).2 = some d →
      (∀ c, d.label_diff 0 0 c = 0) ∧
      d.range_diff 0 0 =
        (srcZero.proj_range 0 0 - tgtOnes.images.proj_range 0 0) ^ 2) :=
  ⟨by intro i j c; norm_num [srcZero], by norm_num [srcZero],
   c1_label_mask_amended srcZero tgtOnes (by intro i j c; norm_num [srcZero])
     0 0 (by norm_num [srcZero])⟩

/-- C9 counterexample: when the difference view is disabled (`show_diff`
false, as in visualize.py line 246), `set_diff` returns at once and the
target scan is unchanged, even though the source pixel is black and the
target pixel is non-black — refuting the claim as stated for every
source/target pair. -/
theorem c9_counterexample :
    (srcZero.proj_color 0 0 0 + srcZero.proj_color 0 0 1 +
      srcZero.proj_color 0 0 2 = 0) ∧
    tgtOnes.images.proj_color 0 0 0 ≠ 0 ∧
    (set_diff false srcZero tgtOnes).1 = tgtOnes :=
  ⟨by norm_num [srcZero], by norm_num [tgtOnes], rfl⟩

/-- C9 amended: when the difference view is enabled and the target scan is
not of the `'cp'` adaption, `set_diff` zeroes the target scan's projected
color image at every pixel whose source color is black and zeroes its
label map at every pixel whose source label is 0; with one such pixel at
which the target is non-black, the target's color image differs after the
call. -/
theorem c9_mutation_amended {h w : ℕ} (src : ScanImages h w)
    (tgt : TargetScan h w) (hcp : tgt.adaption ≠ "cp") (i : Fin h)
    (j : Fin w) (c : Fin 3)
    (hblack : src.proj_color i j 0 + src.proj_color i j 1 +
      src.proj_color i j 2 = 0)
    (hnz : tgt.images.proj_color i j c ≠ 0) :
    (set_diff true src tgt).1.images.proj_color i j c = 0 ∧
    (set_diff true src tgt).1.images.proj_color ≠ tgt.images.proj_color ∧
    (∀ (a : Fin h) (b : Fin w), src.label_map a b = 0 →
      (set_diff true src tgt).1.images.label_map a b = 0) := by
  have hfst : (set_diff true src tgt).1 =
      { tgt with images := mutateImages src tgt.images } := by
    unfold set_diff
    simp [hcp]
  rw [hfst]
  refine ⟨?_, ?_, ?_⟩
  · show maskedTargetColor src tgt.images i j c = 0
    unfold maskedTargetColor
    rw [if_pos hblack]
  · intro heq
    have hpix := congrFun (congrFun (congrFun heq i) j) c
    have hzero : maskedTargetColor src tgt.images i j c = 0 := by
      unfold maskedTargetColor
      rw [if_pos hblack]
    exact hnz ((hzero.symm.trans hpix).symm)
  · intro a b hab
    show maskedTargetLabelMap src tgt.images a b = 0
    unfold maskedTargetLabelMap
    rw [if_pos hab]

theorem c9_witness :
    tgtOnes.adaption ≠ "cp" ∧
    (srcZero.proj_color 0 0 0 + srcZero.proj_color 0 0 1 +
      srcZero.proj_color 0 0 2 = 0) ∧
    tgtOnes.images.proj_color 0 0 0 ≠ 0 ∧
    ((set_diff true srcZero tgtOnes).1.images.proj_color 0 0 0 = 0 ∧
     (set_diff true srcZero tgtOnes).1.images.proj_color ≠
       tgtOnes.images.proj_color ∧
     (∀ (a b : Fin 1), srcZero.label_map a b = 0 →
       (set_diff true srcZero tgtOnes).1.images.label_map a b = 0)) :=
  ⟨by decide, by norm_num [srcZero], by norm_num [tgtOnes],
   c9_mutation_amended srcZero tgtOnes (by decide) 0 0 0
     (by norm_num [srcZero]) (by norm_num [tgtOnes])⟩

/-- C4 counterexample: for an all-zero range frame the power-law remap
leaves every value at 0, so `range_data.max() - range_data.min()` is 0 and
the min-max normalization of laserscanvis.py lines 198-200 divides zero by
zero with no guard anywhere around it; no valid colors are produced for
the frame (the embedding yields `none` for exactly this unguarded
division), refuting the claim that degenerate input is guarded locally. -/
theorem c4_counterexample : viridisRange [0, 0] = none := by
  have h0 : powerRemap 0 = 0 := by
    unfold powerRemap
    exact Real.zero_rpow (by norm_num)
  unfold viridisRange
  simp [h0, listMin, listMax]

/-- C4 amended: for every range frame holding two distinct values (the
smaller nonnegative), the colorization produces exactly one 8-bit index
per pixel, each in [0, 255], and the colormap lookup therefore yields only
valid 8-bit RGB triples; the degenerate all-equal (e.g. all-zero) frame is
NOT guarded — its min-max normalization divides by zero, and no valid
colors result. -/
theorem c4_colorization_amended (table : Fin 256 → ℤ × ℤ × ℤ)
    (htable : ∀ i, rgb8 (table i)) (xs : List ℝ) (a b : ℝ)
    (ha : a ∈ xs) (hb : b ∈ xs) (hab : a < b) (ha0 : 0 ≤ a) :
    ∃ ys, viridisRange xs = some ys ∧ ys.length = xs.length ∧
      (∀ y ∈ ys, 0 ≤ y ∧ y ≤ 255) ∧
      ∃ cs, rangeColors table xs = some cs ∧ cs.length = xs.length ∧
        ∀ c ∈ cs, rgb8 c := by
  set rd := xs.map powerRemap with hrd
  have hpa : powerRemap a ∈ rd := List.mem_map_of_mem _ ha
  have hpb : powerRemap b ∈ rd := List.mem_map_of_mem _ hb
  have hplt : powerRemap a < powerRemap b := by
    unfold powerRemap
    exact Real.rpow_lt_rpow ha0 hab (by norm_num)
  have hmm : listMin rd < listMax rd :=
    lt_of_le_of_lt (listMin_le hpa) (lt_of_lt_of_le hplt (le_listMax hpb))
  have hne : ¬ (listMax rd = listMin rd) := ne_of_gt hmm
  have hd : (0 : ℝ) < listMax rd - listMin rd := by linarith
  have hys : viridisRange xs = some (rd.map fun x =>
      ⌊(x - listMin rd) / (listMax rd - listMin rd) * 255⌋) := by
    simp only [viridisRange]
    rw [← hrd, if_neg hne]
  refine ⟨_, hys, ?_, ?_, ?_⟩
  · rw [List.length_map, hrd, List.length_map]
  · intro y hy
    obtain ⟨x, hx, rfl⟩ := List.mem_map.mp hy
    have h1 : listMin rd ≤ x := listMin_le hx
    have h2 : x ≤ listMax rd := le_listMax hx
    have hq0 : 0 ≤ (x - listMin rd) / (listMax rd - listMin rd) :=
      div_nonneg (by linarith) (le_of_lt hd)
    have hq1 : (x - listMin rd) / (listMax rd - listMin rd) ≤ 1 :=
      (div_le_one hd).mpr (by linarith)
    constructor
    · exact Int.floor_nonneg.mpr (mul_nonneg hq0 (by norm_num))
    · have ht : (x - listMin rd) / (listMax rd - listMin rd) * 255 ≤ 255 := by
        linarith
      have hcast : (⌊(x - listMin rd) / (listMax rd - listMin rd) * 255⌋ : ℝ)
          ≤ 255 := le_trans (Int.floor_le _) ht
      exact_mod_cast hcast
  · unfold rangeColors
    rw [hys, Option.map_some']
    refine ⟨_, rfl, ?_, ?_⟩
    · rw [List.length_map, List.length_map, hrd, List.length_map]
    · intro c hc
      obtain ⟨idx, hidx, rfl⟩ := List.mem_map.mp hc
      exact htable _

theorem c4_witness :
    (∀ i : Fin 256, rgb8 ((fun _ : Fin 256 => ((0 : ℤ), (0 : ℤ), (0 : ℤ))) i)) ∧
    (0 : ℝ) ∈ ([0, 1] : List ℝ) ∧ (1 : ℝ) ∈ ([0, 1] : List ℝ) ∧
    (0 : ℝ) < 1 ∧ (0 : ℝ) ≤ 0 ∧
    (∃ ys, viridisRange [0, 1] = some ys ∧
      ys.length = ([0, 1] : List ℝ).length ∧
      (∀ y ∈ ys, 0 ≤ y ∧ y ≤ 255) ∧
      ∃ cs, rangeColors (fun _ : Fin 256 => ((0 : ℤ), (0 : ℤ), (0 : ℤ)))
          [0, 1] = some cs ∧
        cs.length = ([0, 1] : List ℝ).length ∧ ∀ c ∈ cs, rgb8 c) :=
  ⟨by intro i; norm_num [rgb8], by simp, by simp, by norm_num, le_refl 0,
   c4_colorization_amended _ (by intro i; norm_num [rgb8]) [0, 1] 0 1
     (by simp) (by simp) (by norm_num) (le_refl 0)⟩
